import Mathlib

/-!
Verification of the token-detection, text-splicing and fetch-coordination
core of the `react-textarea-autocomplete` component
(`src/Textarea.jsx` and the companion component version in the repository).

Strings are modelled as `List Char` (JavaScript strings are sequences of
UTF-16 code units; all inputs of interest here are plain BMP characters,
where one code unit is one character).  Each definition below is a direct
translation of the corresponding JavaScript function; doc comments name
the source symbol it embeds.
-/

namespace RTA

/-- Character class `\s` of JavaScript regular expressions (used by the
source through `/\S/` and `/\S*$/`): tab, line feed, vertical tab, form
feed, carriage return, space, and the Unicode space separators. -/
def isWhitespaceChar (c : Char) : Bool :=
  let n := c.toNat
  n = 9 || n = 10 || n = 11 || n = 12 || n = 13 || n = 32 || n = 160 ||
    n = 5760 || (8192 ≤ n && n ≤ 8202) || n = 8232 || n = 8233 ||
    n = 8239 || n = 8287 || n = 12288 || n = 65279

/-- Character class `\w` of JavaScript regular expressions (used by the
source through the token pattern `[triggers]\w*$`): ASCII letters,
digits and underscore. -/
def isWordChar (c : Char) : Bool :=
  let n := c.toNat
  (48 ≤ n && n ≤ 57) || (65 ≤ n && n ≤ 90) || (97 ≤ n && n ≤ 122) || n = 95

/-- Whether `s` is a token in the sense of the pattern `[triggers]\w*$`: it starts
with a configured trigger character and continues with word characters
only. -/
def isTriggerToken (triggers : List Char) : List Char → Bool
  | [] => false
  | t :: rest => triggers.contains t && rest.all isWordChar

/-- Embeds `this.tokenRegExp.exec(s)` for
`tokenRegExp = new RegExp('[' + Object.keys(trigger).join('') + ']\\w*$')`
(`Textarea.jsx`, constructor).  A JavaScript `exec` returns the leftmost
match; for this pattern a match at position `i` succeeds exactly when
`s[i]` is a trigger character and everything after it up to the end of the
string is a word character, so the result is the longest suffix of `s`
that is a trigger token.  (Trigger characters are taken literally; regex
metacharacters inside the character class are outside the scope of this
embedding.) -/
def tokenRegExpExec (triggers : List Char) : List Char → Option (List Char)
  | [] => none
  | c :: cs =>
    if triggers.contains c && cs.all isWordChar then some (c :: cs)
    else tokenRegExpExec triggers cs

/-- Embeds the tokenization part of `_changeHandler` (`Textarea.jsx`,
lines 272–294): run `tokenRegExp` on `value.slice(0, selectionEnd)`;
close (return `none`) when there is no match or `lastToken.length <=
minChar`; find the current trigger among the configured trigger
characters as `triggerChars.find(a => a === lastToken[0])`; the partial
token is `lastToken.slice(1)`.  Returns `some (currentTrigger,
actualToken)` exactly when the handler goes on to record the session and
issue a fetch. -/
def changeHandlerToken (triggers : List Char) (minChar : Nat)
    (value : List Char) (selectionEnd : Nat) : Option (Char × List Char) :=
  match tokenRegExpExec triggers (value.take selectionEnd) with
  | none => none
  | some lastToken =>
    if lastToken.length ≤ minChar then none
    else
      match lastToken with
      | [] => none
      | l :: ls => if triggers.contains l then some (l, ls) else none

/-- Default value of `minChar` from `defaultProps` (`Textarea.jsx`, line 21). -/
def defaultMinChar : Nat := 1

/-- The longest trailing run of non-whitespace characters of `s`. -/
def trailingNonWsRun (s : List Char) : List Char :=
  (s.reverse.takeWhile (fun c => !isWhitespaceChar c)).reverse

/-- Modelled from the spec's words only (for comparison against
`changeHandlerToken`, never used as an embedding of the source): the
Tokenizer returns a match iff the longest trailing run of non-whitespace
characters of the text truncated at the caret begins with a configured
trigger character and its length exceeds `minChar`; on a match it splits
that run into its first character and the remainder. -/
def specTokenizer (triggers : List Char) (minChar : Nat)
    (value : List Char) (caret : Nat) : Option (Char × List Char) :=
  match trailingNonWsRun (value.take caret) with
  | [] => none
  | t :: rest =>
    if triggers.contains t && minChar < rest.length + 1 then some (t, rest)
    else none

/-- Embeds the `while` loop of `_onSelect` (`Textarea.jsx`, lines 92–98):
the number of steps taken scanning forward over characters that exist and
pass `/\S/`, starting at `selectionEnd`; here expressed on the remaining
characters `value.drop selectionEnd`. -/
def wsScanLen : List Char → Nat
  | [] => 0
  | c :: cs => if isWhitespaceChar c then 0 else wsScanLen cs + 1

/-- Embeds `textToModify.search(/\S*$/)` (`Textarea.jsx`, line 105):
`search` returns the leftmost position where the pattern matches, and
`\S*$` matches at position `i` exactly when every character from `i` to
the end is non-whitespace; so the result is the start of the trailing
non-whitespace run (the length of `s` when `s` ends in whitespace). -/
def searchNonWsSuffix : List Char → Nat
  | [] => 0
  | c :: cs =>
    if (c :: cs).all (fun x => !isWhitespaceChar x) then 0
    else searchNonWsSuffix cs + 1

/-- Embeds `GetSubstitution` of ECMA-262 as used by
`String.prototype.replace` with a *string* pattern, where there are no
capture groups: in the replacement template, `$$` yields a single
dollar, `$&` yields the matched substring, a dollar followed by the
backquote character (code 96) yields the portion of the subject before
the match, a dollar followed by the quote character (code 39) yields the
portion after the match, and every other dollar sequence (including
`$n`, since a string pattern has no captures) is left literal. -/
def dollarSubstitution (matched before after : List Char) :
    List Char → List Char
  | [] => []
  | c :: rest =>
    if c = '$' then
      match rest with
      | [] => [c]
      | d :: rest2 =>
        if d = '$' then d :: dollarSubstitution matched before after rest2
        else if d = '&' then
          matched ++ dollarSubstitution matched before after rest2
        else if d = Char.ofNat 96 then
          before ++ dollarSubstitution matched before after rest2
        else if d = Char.ofNat 39 then
          after ++ dollarSubstitution matched before after rest2
        else c :: d :: dollarSubstitution matched before after rest2
    else c :: dollarSubstitution matched before after rest

/-- Worker for `jsReplace`: scans for the leftmost occurrence of `pat`,
carrying the already-scanned portion `before` (needed by the
dollar-backquote escape). -/
def jsReplaceAux (pat repl : List Char) : List Char → List Char → List Char
  | before, [] =>
    if List.isPrefixOf pat [] then
      dollarSubstitution pat before (List.drop pat.length ([] : List Char))
          repl ++
        List.drop pat.length ([] : List Char)
    else []
  | before, c :: cs =>
    if List.isPrefixOf pat (c :: cs) then
      dollarSubstitution pat before (List.drop pat.length (c :: cs)) repl ++
        List.drop pat.length (c :: cs)
    else c :: jsReplaceAux pat repl (before ++ [c]) cs

/-- Embeds `String.prototype.replace` with a string pattern
(`value.replace(textToModify, modifiedText)`, `Textarea.jsx`, line 113):
the leftmost occurrence of `pat` in the subject is replaced by the
replacement template `repl` expanded by `GetSubstitution`
(`dollarSubstitution`); when `pat` does not occur, the subject is
returned unchanged. -/
def jsReplace (pat repl s : List Char) : List Char :=
  jsReplaceAux pat repl [] s

/-- Result of a commit: new textarea value and new caret position. -/
structure SpliceResult where
  newValue : List Char
  newCaretPosition : Nat
  deriving DecidableEq, Repr

/-- Embeds the splice arithmetic of `_onSelect` (`Textarea.jsx`, lines
88–126): scan forward from the recorded `selectionEnd` over
non-whitespace characters to find the token end, truncate the value
there (`textToModify`), find the token start with `search(/\S*$/)`,
build `modifiedText = textToModify.substring(0, start) + newToken`, and
produce `value.replace(textToModify, modifiedText)` together with
`newCaretPosition = start + newToken.length`. -/
def spliceOnSelect (value : List Char) (selectionEnd : Nat)
    (newToken : List Char) : SpliceResult :=
  let offsetToEndOfToken := wsScanLen (value.drop selectionEnd)
  let textToModify := value.take (selectionEnd + offsetToEndOfToken)
  let startOfTokenPosition := searchNonWsSuffix textToModify
  let newCaretPosition := startOfTokenPosition + newToken.length
  let modifiedText := textToModify.take startOfTokenPosition ++ newToken
  { newValue := jsReplace textToModify modifiedText value
    newCaretPosition := newCaretPosition }

/-- Embeds the default branch of `_getTextToReplace` (`Textarea.jsx`,
lines 128–151) for a plain-string item when no `output` function is
configured: the replacement is
`currentTrigger + item + currentTrigger`. -/
def getTextToReplaceDefault (currentTrigger : Char) (item : List Char) :
    List Char :=
  [currentTrigger] ++ item ++ [currentTrigger]

/-- The component state fields the core logic reads and writes
(`Textarea.jsx`, the `state` initializer at lines 47–58; the pixel
fields `top`/`left` belong to the presentation collaborator and are
omitted).  Candidates are modelled as plain strings; `component` records
whether the `component` renderer has been stored (`null` initially). -/
structure SessionState where
  currentTrigger : Option Char
  actualToken : List Char
  data : Option (List (List Char))
  value : List Char
  dataLoading : Bool
  selectionEnd : Nat
  selectionStart : Nat
  component : Bool
  deriving DecidableEq, Repr

/-- The `state` initializer of the component (`Textarea.jsx`, lines
47–58). -/
def initialState : SessionState :=
  { currentTrigger := none
    actualToken := []
    data := none
    value := []
    dataLoading := false
    selectionEnd := 0
    selectionStart := 0
    component := false }

/-- Embeds `_getSuggestions` (`Textarea.jsx`, lines 206–212):
`if (!currentTrigger || !data || (data && !data.length)) return null;
return data`. -/
def getSuggestions (st : SessionState) : Option (List (List Char)) :=
  match st.currentTrigger, st.data with
  | some _, some d => if d.length = 0 then none else some d
  | _, _ => none

/-- Embeds `_closeAutocomplete` (`Textarea.jsx`, lines 224–228):
`if (!this._getSuggestions()) return; this.setState({ data: null })`. -/
def closeAutocomplete (st : SessionState) : SessionState :=
  match getSuggestions st with
  | none => st
  | some _ => { st with data := none }

/-- The escape-key listener registered in the constructor
(`Textarea.jsx`, line 31): `Listeners.add(KEY_CODES.ESC, () =>
this._closeAutocomplete())`. -/
def escKeyPressed (st : SessionState) : SessionState :=
  closeAutocomplete st

/-- The `setState` of `_changeHandler` (`Textarea.jsx`, lines 299–307)
that records the session before the fetch is issued: stores
`currentTrigger`, `actualToken` and the selection offsets. -/
def setActiveToken (st : SessionState) (trig : Char) (tok : List Char)
    (selStart selEnd : Nat) : SessionState :=
  { st with
    currentTrigger := some trig
    actualToken := tok
    selectionStart := selStart
    selectionEnd := selEnd }

/-- The synchronous part of `_getValuesFromProvider` (`Textarea.jsx`,
lines 175–177): `this.setState({ dataLoading: true })` before the
provider is dispatched. -/
def issueFetchState (st : SessionState) : SessionState :=
  { st with dataLoading := true }

/-- The `setState` inside the `.then` callback of
`_getValuesFromProvider` (`Textarea.jsx`, lines 195–199): stores the
resolved `data`, clears `dataLoading` and stores the renderer — with no
comparison whatsoever against the token identity that issued the
fetch. -/
def resolveFetchState (st : SessionState) (data : List (List Char)) :
    SessionState :=
  { st with dataLoading := false, data := some data, component := true }

/-- From `render` (`Textarea.jsx`, lines 362–369): the loader is mounted
exactly when `dataLoading` is set. -/
def loaderRendered (st : SessionState) : Bool :=
  st.dataLoading

/-- From `render` (`Textarea.jsx`, lines 351–370): the floating
autocomplete container is mounted when `dataLoading || suggestionData`. -/
def autocompleteRendered (st : SessionState) : Bool :=
  st.dataLoading || (getSuggestions st).isSome

/-- From `render` (`Textarea.jsx`, lines 353–361): the suggestion `List`
is mounted when suggestions exist and a renderer is stored. -/
def listRendered (st : SessionState) : Bool :=
  (getSuggestions st).isSome && st.component

/-- JavaScript values as far as the provider-resolution check needs
them: the resolved candidates may be an array, a string, a number or
`undefined`, and the local variable `providedData` may additionally be a
`Promise`. -/
inductive JSValue where
  | jsArray : List (List Char) → JSValue
  | jsString : List Char → JSValue
  | jsNumber : Int → JSValue
  | jsUndefined : JSValue
  | jsPromise : JSValue → JSValue
  deriving DecidableEq, Repr

/-- The JavaScript `typeof` operator on the values above; `typeof` of
any `Promise` and of any array is the string `'object'`. -/
def jsTypeof : JSValue → List Char
  | JSValue.jsArray _ => "object".toList
  | JSValue.jsString _ => "string".toList
  | JSValue.jsNumber _ => "number".toList
  | JSValue.jsUndefined => "undefined".toList
  | JSValue.jsPromise _ => "object".toList

/-- Embeds the normalization in `_getValuesFromProvider` (`Textarea.jsx`,
lines 179–183): `if (!(providedData instanceof Promise)) providedData =
Promise.resolve(providedData)` — after it, `providedData` is always a
`Promise`. -/
def normalizeProvided (v : JSValue) : JSValue :=
  match v with
  | JSValue.jsPromise _ => v
  | _ => JSValue.jsPromise v

/-- The value the normalized promise resolves with. -/
def promiseResolved : JSValue → JSValue
  | JSValue.jsPromise v => v
  | v => v

/-- Embeds the `.then` callback of `_getValuesFromProvider`
(`Textarea.jsx`, lines 185–199) applied to a provider return value: the
callback checks `typeof providedData !== 'object'` — note: the local
`providedData` (the promise), not the resolved `data` — then `typeof
component !== 'function'`, and otherwise stores the resolved value. -/
def getValuesResolution (providerResult : JSValue)
    (componentIsFunction : Bool) : Except (List Char) JSValue :=
  let providedData := normalizeProvided providerResult
  let data := promiseResolved providedData
  if jsTypeof providedData ≠ ("object".toList) then
    Except.error ("RTA: Trigger provider has to provide an array!".toList)
  else if !componentIsFunction then
    Except.error ("RTA: Component should be defined!".toList)
  else
    Except.ok data

/-- Notifications observable by the host and the DOM during the commit
of a selection. -/
inductive BridgeEvent where
  | contentUpdate : List Char → BridgeEvent
  | syntheticChange : List Char → BridgeEvent
  | caretReposition : Nat → BridgeEvent
  | caretNotify : Nat → BridgeEvent
  deriving DecidableEq, Repr

/-- Holds exactly on a synthetic content-changed notification. -/
def isSyntheticChangeEvent : BridgeEvent → Bool
  | BridgeEvent.syntheticChange _ => true
  | _ => false

/-- Embeds the notification sequence of `_onSelect` in the companion
component version (`src/unnamed/part_001`, lines 143–162): the
`setState` callback runs after the value update has been committed, and
in order (1) dispatches one synthetic `change` event on the textarea
(whose `value` is by then the new text) and forwards it to `onChange`,
(2) repositions the caret with `setSelectionRange(newCaretPosition,
newCaretPosition)`, and (3) when `onCaretPositionChange` is configured,
reads the caret back from the textarea (`selectionEnd`, just set to
`newCaretPosition`) and reports it. -/
def onSelectTrace (value : List Char) (selectionEnd : Nat)
    (newToken : List Char) (onCaretPositionChangeConfigured : Bool) :
    List BridgeEvent :=
  let r := spliceOnSelect value selectionEnd newToken
  [BridgeEvent.contentUpdate r.newValue,
   BridgeEvent.syntheticChange r.newValue,
   BridgeEvent.caretReposition r.newCaretPosition] ++
    (if onCaretPositionChangeConfigured then
      [BridgeEvent.caretNotify r.newCaretPosition]
    else [])

end RTA

namespace RTA

/-- A truncation of a list is one of its prefixes. -/
theorem isPrefixOf_take_self (v : List Char) (n : Nat) :
    List.isPrefixOf (v.take n) v = true := by
  induction v generalizing n with
  | nil => cases n <;> rfl
  | cons a as ih =>
    cases n with
    | zero => rfl
    | succ m => simpa [List.isPrefixOf] using ih m

/-- A replacement template with no dollar character is substituted
literally. -/
theorem dollarSubstitution_eq_self (matched before after t : List Char)
    (h : ¬ '$' ∈ t) : dollarSubstitution matched before after t = t := by
  induction t with
  | nil => rfl
  | cons c rest ih =>
    have hc : ¬ c = '$' := fun hcc => h (by rw [hcc]; exact List.mem_cons_self _ _)
    have hrest : ¬ '$' ∈ rest := fun hm => h (List.mem_cons_of_mem _ hm)
    rw [dollarSubstitution.eq_def]
    dsimp only
    rw [if_neg hc, ih hrest]

/-- Replacing a pattern that is a prefix of the subject substitutes the
expanded template for that leading occurrence (the portion before the
match is empty). -/
theorem jsReplace_of_isPrefixOf (pat repl s : List Char)
    (h : List.isPrefixOf pat s = true) :
    jsReplace pat repl s =
      dollarSubstitution pat [] (List.drop pat.length s) repl ++
        List.drop pat.length s := by
  cases s with
  | nil =>
    unfold jsReplace jsReplaceAux
    rw [if_pos h]
  | cons c cs =>
    unfold jsReplace jsReplaceAux
    rw [if_pos h]

/-- The start of the trailing non-whitespace run lies inside the
string. -/
theorem searchNonWsSuffix_le (s : List Char) :
    searchNonWsSuffix s ≤ s.length := by
  induction s with
  | nil => simp [searchNonWsSuffix]
  | cons c cs ih =>
    cases hx : (c :: cs).all (fun x => !isWhitespaceChar x) with
    | true => simp [searchNonWsSuffix, hx]
    | false =>
      simp only [searchNonWsSuffix, hx, Bool.false_eq_true, if_false,
        List.length_cons]
      omega

/-- Decomposition of the splice of `_onSelect`: writing `e` for the
token end reached by the forward whitespace scan and `s` for the token
start found by `search(/\S*$/)`, the produced value is exactly the
`GetSubstitution`-expansion of `value[0..s) ++ newToken` (matched text
`value[0..e)`, empty portion before the match, portion `value[e..)`
after it) followed by `value[e..)`, and the produced caret offset is
`s + newToken.length`. -/
theorem spliceOnSelect_decomp (v : List Char) (se : Nat) (tok : List Char) :
    spliceOnSelect v se tok =
      { newValue :=
          dollarSubstitution (v.take (se + wsScanLen (v.drop se))) []
              (v.drop (se + wsScanLen (v.drop se)))
              (v.take (searchNonWsSuffix
                  (v.take (se + wsScanLen (v.drop se)))) ++ tok) ++
            v.drop (se + wsScanLen (v.drop se))
        newCaretPosition :=
          searchNonWsSuffix (v.take (se + wsScanLen (v.drop se))) +
            tok.length } := by
  unfold spliceOnSelect
  have hsle : searchNonWsSuffix (v.take (se + wsScanLen (v.drop se))) ≤
      se + wsScanLen (v.drop se) := by
    refine le_trans (searchNonWsSuffix_le _) ?_
    rw [List.length_take]
    exact Nat.min_le_left _ _
  have hrepl := jsReplace_of_isPrefixOf
    (v.take (se + wsScanLen (v.drop se)))
    ((v.take (se + wsScanLen (v.drop se))).take
        (searchNonWsSuffix (v.take (se + wsScanLen (v.drop se)))) ++ tok)
    v (isPrefixOf_take_self v (se + wsScanLen (v.drop se)))
  have h1 : (v.take (se + wsScanLen (v.drop se))).take
      (searchNonWsSuffix (v.take (se + wsScanLen (v.drop se)))) =
      v.take (searchNonWsSuffix (v.take (se + wsScanLen (v.drop se)))) := by
    rw [List.take_take]
    congr 1
    exact Nat.min_eq_left hsle
  have h2 : v.drop (v.take (se + wsScanLen (v.drop se))).length =
      v.drop (se + wsScanLen (v.drop se)) := by
    rw [List.length_take]
    rcases Nat.le_total (se + wsScanLen (v.drop se)) v.length with h | h
    · rw [Nat.min_eq_left h]
    · rw [Nat.min_eq_right h, List.drop_eq_nil_of_le h,
        List.drop_eq_nil_of_le (le_refl _)]
  simp only [SpliceResult.mk.injEq]
  refine ⟨?_, trivial⟩
  rw [hrepl, h1, h2]

/-- Unfolding of `isTriggerToken` on a nonempty list. -/
theorem isTriggerToken_cons (triggers : List Char) (c : Char)
    (cs : List Char) :
    isTriggerToken triggers (c :: cs) =
      (triggers.contains c && cs.all isWordChar) := rfl

/-- A suffix at least as long as the whole list is the whole list. -/
theorem suffix_eq_of_length_ge (l s : List Char) (h : l <:+ s)
    (hlen : s.length ≤ l.length) : l = s := by
  obtain ⟨t, ht⟩ := h
  have hl : t.length + l.length = s.length := by
    rw [← ht, List.length_append]
  have ht0 : t = [] := List.eq_nil_of_length_eq_zero (by omega)
  subst ht0
  simpa using ht

/-- Characterization of leftmost matching of the pattern
`[triggers]\w*$`: `exec` returns `tok` exactly when `tok` is a suffix of
the subject, is a trigger token, and no longer suffix is one. -/
theorem tokenRegExpExec_eq_some_iff (triggers : List Char)
    (s tok : List Char) :
    tokenRegExpExec triggers s = some tok ↔
      (tok <:+ s ∧ isTriggerToken triggers tok = true ∧
        ∀ tok2, tok2 <:+ s → isTriggerToken triggers tok2 = true →
          tok2.length ≤ tok.length) := by
  induction s with
  | nil =>
    simp only [tokenRegExpExec]
    constructor
    · intro h; cases h
    · rintro ⟨hsuf, htok, -⟩
      have h0 : tok = [] := List.suffix_nil.mp hsuf
      subst h0
      simp [isTriggerToken] at htok
  | cons c cs ih =>
    cases hc : (triggers.contains c && cs.all isWordChar) with
    | true =>
      simp only [tokenRegExpExec, hc, if_true, Option.some.injEq]
      constructor
      · rintro rfl
        refine ⟨List.suffix_refl _, hc, ?_⟩
        intro tok2 hsuf2 _
        exact List.IsSuffix.length_le hsuf2
      · rintro ⟨hsuf, htok, hmax⟩
        have hfull : (c :: cs).length ≤ tok.length :=
          hmax (c :: cs) (List.suffix_refl _) hc
        exact (suffix_eq_of_length_ge tok (c :: cs) hsuf hfull).symm
    | false =>
      simp only [tokenRegExpExec, hc, Bool.false_eq_true, if_false]
      rw [ih]
      constructor
      · rintro ⟨hsuf, htok, hmax⟩
        refine ⟨hsuf.trans (List.suffix_cons c cs), htok, ?_⟩
        intro tok2 hsuf2 htok2
        rcases List.suffix_cons_iff.mp hsuf2 with h | h
        · subst h
          rw [isTriggerToken_cons, hc] at htok2
          cases htok2
        · exact hmax tok2 h htok2
      · rintro ⟨hsuf, htok, hmax⟩
        rcases List.suffix_cons_iff.mp hsuf with h | h
        · subst h
          rw [isTriggerToken_cons, hc] at htok
          cases htok
        · refine ⟨h, htok, ?_⟩
          intro tok2 hsuf2 htok2
          exact hmax tok2 (hsuf2.trans (List.suffix_cons c cs)) htok2

/-- A trigger token is nonempty. -/
theorem isTriggerToken_ne_nil (triggers : List Char) (tok : List Char)
    (h : isTriggerToken triggers tok = true) : tok ≠ [] := by
  cases tok with
  | nil => simp [isTriggerToken] at h
  | cons a as => simp

/-- Characterization of the tokenization step of `_changeHandler`: it
records a session `(t, rest)` exactly when `t :: rest` is the longest
suffix of the caret-truncated text that is a trigger token, and its
length exceeds `minChar`. -/
theorem changeHandlerToken_eq_some_iff (triggers : List Char)
    (minChar : Nat) (v : List Char) (c : Nat) (t : Char)
    (rest : List Char) :
    changeHandlerToken triggers minChar v c = some (t, rest) ↔
      ((t :: rest) ∈ (v.take c).tails ∧
        isTriggerToken triggers (t :: rest) = true ∧
        minChar < rest.length + 1 ∧
        ∀ tok2 ∈ (v.take c).tails, isTriggerToken triggers tok2 = true →
          tok2.length ≤ rest.length + 1) := by
  simp only [List.mem_tails]
  unfold changeHandlerToken
  cases hexec : tokenRegExpExec triggers (v.take c) with
  | none =>
    simp only [reduceCtorEq, false_iff, not_and]
    intro hsuf htok hmin hmax
    have : tokenRegExpExec triggers (v.take c) = some (t :: rest) := by
      rw [tokenRegExpExec_eq_some_iff]
      exact ⟨hsuf, htok, fun tok2 h2 h3 => hmax tok2 h2 h3⟩
    rw [hexec] at this
    cases this
  | some lastToken =>
    have hchar := (tokenRegExpExec_eq_some_iff triggers (v.take c)
      lastToken).mp hexec
    obtain ⟨hsufL, htokL, hmaxL⟩ := hchar
    obtain ⟨l, ls, rfl⟩ : ∃ l ls, lastToken = l :: ls := by
      cases lastToken with
      | nil => simp [isTriggerToken] at htokL
      | cons a as => exact ⟨a, as, rfl⟩
    have hcontains : triggers.contains l = true := by
      rw [isTriggerToken_cons] at htokL
      simp only [Bool.and_eq_true] at htokL
      exact htokL.1
    by_cases hlen : (l :: ls).length ≤ minChar
    · simp only [hlen, if_true, reduceCtorEq, false_iff, not_and]
      intro hsuf htok hmin hmax
      have heq : tokenRegExpExec triggers (v.take c) = some (t :: rest) := by
        rw [tokenRegExpExec_eq_some_iff]
        exact ⟨hsuf, htok, fun tok2 h2 h3 => hmax tok2 h2 h3⟩
      rw [hexec, Option.some.injEq] at heq
      rw [heq] at hlen
      simp only [List.length_cons] at hlen hmin
      omega
    · simp only [hlen, if_false, hcontains, if_true, Option.some.injEq,
        Prod.mk.injEq]
      constructor
      · rintro ⟨rfl, rfl⟩
        refine ⟨hsufL, htokL, ?_, ?_⟩
        · simp only [List.length_cons] at hlen
          omega
        · intro tok2 h2 h3
          simpa using hmaxL tok2 h2 h3
      · rintro ⟨hsuf, htok, hmin, hmax⟩
        have heq : tokenRegExpExec triggers (v.take c) = some (t :: rest) := by
          rw [tokenRegExpExec_eq_some_iff]
          exact ⟨hsuf, htok, fun tok2 h2 h3 => hmax tok2 h2 h3⟩
        rw [hexec, Option.some.injEq] at heq
        injection heq with h1 h2
        exact ⟨h1, h2⟩

/-- Claim C1, counterexample: for text `"hello :a world"`, recorded
caret offset 8 and replacement `"__x__"`, the splice does produce
`"hello __x__ world"` but the new caret offset is `start +
length(replacement) = 6 + 5 = 11`, not 13 as the claim states. -/
theorem claim_C1_counterexample :
    (spliceOnSelect ("hello :a world".toList) 8 ("__x__".toList)).newValue =
        ("hello __x__ world".toList) ∧
    (spliceOnSelect ("hello :a world".toList) 8
        ("__x__".toList)).newCaretPosition = 11 ∧
    ¬ ((spliceOnSelect ("hello :a world".toList) 8
        ("__x__".toList)).newCaretPosition = 13) := by
  decide

/-- Claim C1 (amended): for every commit, the Text Splicer finds the
token end by scanning forward from the recorded caret offset over
non-whitespace characters, finds the token start by searching backward
for the start of that contiguous non-whitespace run, and — provided
neither the kept text before the token start nor the formatted
replacement contains a dollar character (otherwise
`String.prototype.replace` expands dollar escapes in the inserted text)
— produces the new text with `[start, end)` replaced by the formatted
replacement; the new caret offset is `start + length(replacement)`
unconditionally; in particular, for text `"hello :a world"` with
recorded caret offset 8 and replacement `"__x__"`, the result is
`"hello __x__ world"` with new caret offset 11 (not 13). -/
theorem claim_C1_amended :
    (∀ (value : List Char) (selectionEnd : Nat) (replacement : List Char),
        ¬ '$' ∈ value.take (searchNonWsSuffix (value.take (selectionEnd +
            wsScanLen (value.drop selectionEnd)))) →
        ¬ '$' ∈ replacement →
        spliceOnSelect value selectionEnd replacement =
          { newValue :=
              value.take (searchNonWsSuffix (value.take (selectionEnd +
                  wsScanLen (value.drop selectionEnd)))) ++ replacement ++
                value.drop (selectionEnd + wsScanLen (value.drop selectionEnd))
            newCaretPosition :=
              searchNonWsSuffix (value.take (selectionEnd +
                  wsScanLen (value.drop selectionEnd))) +
                replacement.length }) ∧
    (∀ (value : List Char) (selectionEnd : Nat) (replacement : List Char),
        (spliceOnSelect value selectionEnd replacement).newCaretPosition =
          searchNonWsSuffix (value.take (selectionEnd +
              wsScanLen (value.drop selectionEnd))) + replacement.length) ∧
    spliceOnSelect ("hello :a world".toList) 8 ("__x__".toList) =
      { newValue := ("hello __x__ world".toList)
        newCaretPosition := 11 } := by
  refine ⟨?_, ?_, by decide⟩
  · intro value selectionEnd replacement hpre hrepl
    rw [spliceOnSelect_decomp]
    have hnod : ¬ '$' ∈
        (value.take (searchNonWsSuffix (value.take (selectionEnd +
            wsScanLen (value.drop selectionEnd)))) ++ replacement) := by
      intro hm
      rcases List.mem_append.mp hm with hm | hm
      · exact hpre hm
      · exact hrepl hm
    rw [dollarSubstitution_eq_self _ _ _ _ hnod]
  · intro value selectionEnd replacement
    rw [spliceOnSelect_decomp]

/-- Witness for claim C1 (amended), at the dollar-free commit of
`":x:"` into `"ab :cd"` with recorded caret 6: the token `[3, 6)` is
replaced literally and the caret lands at `3 + 3 = 6`. -/
theorem claim_C1_amended_witness :
    spliceOnSelect ("ab :cd".toList) 6 (":x:".toList) =
      { newValue := ("ab :x:".toList), newCaretPosition := 6 } := by
  have h := claim_C1_amended.1 ("ab :cd".toList) 6 (":x:".toList)
    (by decide) (by decide)
  rw [h]
  decide

/-- Claim C2, counterexample: with trigger `:` and `minChar = 1`, text
`"a:b"` with caret offset 3, the longest trailing run of non-whitespace
characters is `"a:b"`, which does not begin with a trigger character, so
the claimed condition yields no match — but the code's pattern
`[:]\w*$` matches `":b"` and the handler records a session.  The
claimed "if and only if" is therefore false. -/
theorem claim_C2_counterexample :
    ¬ ((changeHandlerToken [':'] 1 ("a:b".toList) 3).isSome ↔
        (specTokenizer [':'] 1 ("a:b".toList) 3).isSome) := by
  decide

/-- Claim C2 (amended): the Tokenizer records a session `(triggerChar,
partialToken)` if and only if `triggerChar :: partialToken` is a suffix
of the text truncated at the caret that begins with a configured trigger
character, continues with word characters only (`\w`, not arbitrary
non-whitespace), is the longest such suffix, and its length exceeds
`minChar`. -/
theorem claim_C2_amended (triggers : List Char) (minChar : Nat)
    (v : List Char) (c : Nat) (t : Char) (rest : List Char) :
    changeHandlerToken triggers minChar v c = some (t, rest) ↔
      ((t :: rest) ∈ (v.take c).tails ∧
        isTriggerToken triggers (t :: rest) = true ∧
        minChar < rest.length + 1 ∧
        ∀ tok2 ∈ (v.take c).tails, isTriggerToken triggers tok2 = true →
          tok2.length ≤ rest.length + 1) :=
  changeHandlerToken_eq_some_iff triggers minChar v c t rest

/-- Witness for claim C2 (amended), at trigger `:`, `minChar = 1`, text
`"a:b"`, caret 3. -/
theorem claim_C2_amended_witness :
    changeHandlerToken [':'] 1 ("a:b".toList) 3 = some (':', ['b']) :=
  (claim_C2_amended [':'] 1 ("a:b".toList) 3 ':' ['b']).mpr (by decide)

/-- Claim C3, counterexample: a fetch is issued for token `"a"` (it will
resolve with `["alpha"]`), the token then changes to `"ab"` and a newer
fetch is issued (it resolves with `["beta"]`); the newer fetch settles
first, the stale one settles last.  The `.then` callback stores its
payload unconditionally, so the final candidates are `["alpha"]` — the
stale resolution overwrote the newer one, contradicting the claim that
the final state reflects only the later-issued fetch. -/
theorem claim_C3_counterexample :
    (resolveFetchState
        (resolveFetchState
          (issueFetchState
            (setActiveToken
              (issueFetchState
                (setActiveToken initialState ':' ("a".toList) 5 5))
              ':' ("ab".toList) 6 6))
          [("beta".toList)])
        [("alpha".toList)]).data = some [("alpha".toList)] ∧
      ¬ (some [("alpha".toList)] = some [("beta".toList)]) := by
  decide

/-- Claim C3 (amended): the fetch coordination is last-settled-wins,
not last-issued-wins: a resolution always overwrites the session's
candidates and loading flag with its own payload, with no comparison
against the token identity current at settlement time; over two
overlapping fetches settling out of order, the final state carries the
payload of the fetch that settled last. -/
theorem claim_C3_amended (st : SessionState) (tA tB : Char)
    (tokA tokB : List Char) (sA sB : Nat) (dA dB : List (List Char)) :
    (resolveFetchState
        (resolveFetchState
          (issueFetchState
            (setActiveToken
              (issueFetchState (setActiveToken st tA tokA sA sA))
              tB tokB sB sB))
          dB)
        dA).data = some dA ∧
    (resolveFetchState
        (resolveFetchState
          (issueFetchState
            (setActiveToken
              (issueFetchState (setActiveToken st tA tokA sA sA))
              tB tokB sB sB))
          dB)
        dA).dataLoading = false := by
  exact ⟨rfl, rfl⟩

/-- Claim C4: with no `output` function configured, committing a string
candidate `c` for trigger character `t` splices in `t ++ c ++ t`; and
end to end, with trigger `:` fetching `["happy", "sad"]`, typed text
`"hi :ha"` with the caret at its end, selecting `"happy"` produces
`"hi :happy:"` with the caret immediately after the inserted
replacement (offset 10, the length of the result). -/
theorem claim_C4 :
    (∀ (t : Char) (c : List Char),
        getTextToReplaceDefault t c = [t] ++ c ++ [t]) ∧
    changeHandlerToken [':'] 1 ("hi :ha".toList) 6 =
      some (':', ("ha".toList)) ∧
    getSuggestions
        (resolveFetchState
          (issueFetchState (setActiveToken initialState ':' ("ha".toList) 6 6))
          [("happy".toList), ("sad".toList)]) =
      some [("happy".toList), ("sad".toList)] ∧
    getTextToReplaceDefault ':' ("happy".toList) = (":happy:".toList) ∧
    spliceOnSelect ("hi :ha".toList) 6 (":happy:".toList) =
      { newValue := ("hi :happy:".toList), newCaretPosition := 10 } ∧
    ("hi :happy:".toList).length = 10 := by
  refine ⟨fun t c => rfl, ?_⟩
  decide

/-- Claim C5, counterexample: with the default `minChar = 1` and trigger
`:`, text `":a"` with caret offset 2, the partial token `"a"` has length
1, which does not exceed `minChar` — yet the handler records the session
(and goes on to fetch), because the code compares `minChar` against the
length of the whole matched token including the trigger character. -/
theorem claim_C5_counterexample :
    changeHandlerToken [':'] defaultMinChar (":a".toList) 2 =
      some (':', ['a']) ∧
    ¬ (defaultMinChar < (['a'] : List Char).length) := by
  decide

/-- Claim C5 (amended): `minChar` defaults to 1, and a session is
suppressed until the length of the whole matched token — the trigger
character plus the partial token — exceeds `minChar`; equivalently,
whenever a session is recorded, the partial token length is at least
`minChar` (not strictly greater). -/
theorem claim_C5_amended :
    defaultMinChar = 1 ∧
      ∀ (triggers : List Char) (minChar : Nat) (v : List Char) (c : Nat)
        (t : Char) (rest : List Char),
        changeHandlerToken triggers minChar v c = some (t, rest) →
          minChar ≤ rest.length := by
  refine ⟨rfl, ?_⟩
  intro triggers minChar v c t rest h
  have hmin :=
    ((changeHandlerToken_eq_some_iff triggers minChar v c t rest).mp h).2.2.1
  omega

/-- Witness for claim C5 (amended): trigger `:`, `minChar = 1`, text
`":ab"`, caret 3 records partial token `"ab"`, whose length is at least
1. -/
theorem claim_C5_amended_witness : (1 : Nat) ≤ ("ab".toList).length :=
  claim_C5_amended.2 [':'] 1 (":ab".toList) 3 ':' ("ab".toList) (by decide)

/-- Claim C6, counterexample: in the state reached while a fetch is in
flight and no candidates have been received (`currentTrigger` set,
`data = null`, `dataLoading = true`), pressing escape runs
`_closeAutocomplete`, which returns early because `_getSuggestions()` is
`null`: the state is unchanged, the loading indicator is still rendered,
and when the in-flight fetch then resolves it stores its candidates,
making the suggestion list available — not a no-op. -/
theorem claim_C6_counterexample :
    escKeyPressed
        { currentTrigger := some ':'
          actualToken := ("ab".toList)
          data := none
          value := ("x :ab".toList)
          dataLoading := true
          selectionEnd := 5
          selectionStart := 5
          component := false } =
      { currentTrigger := some ':'
        actualToken := ("ab".toList)
        data := none
        value := ("x :ab".toList)
        dataLoading := true
        selectionEnd := 5
        selectionStart := 5
        component := false } ∧
    loaderRendered
        (escKeyPressed
          { currentTrigger := some ':'
            actualToken := ("ab".toList)
            data := none
            value := ("x :ab".toList)
            dataLoading := true
            selectionEnd := 5
            selectionStart := 5
            component := false }) = true ∧
    getSuggestions
        (resolveFetchState
          (escKeyPressed
            { currentTrigger := some ':'
              actualToken := ("ab".toList)
              data := none
              value := ("x :ab".toList)
              dataLoading := true
              selectionEnd := 5
              selectionStart := 5
              component := false })
          [("x".toList)]) = some [("x".toList)] := by
  decide

/-- Claim C6 (amended): pressing escape clears the candidate list when
one is available and is otherwise a no-op; after it, no suggestion list
is available, but the loading flag (and with it the loading indicator)
and the active trigger are left untouched, and an in-flight fetch that
resolves after the cancellation still stores its candidates into the
session. -/
theorem claim_C6_amended (st : SessionState) :
    getSuggestions (escKeyPressed st) = none ∧
    (escKeyPressed st).dataLoading = st.dataLoading ∧
    (escKeyPressed st).currentTrigger = st.currentTrigger ∧
    ∀ d, (resolveFetchState (escKeyPressed st) d).data = some d := by
  unfold escKeyPressed closeAutocomplete
  cases hs : getSuggestions st with
  | none => exact ⟨hs, rfl, rfl, fun d => rfl⟩
  | some d0 =>
    refine ⟨?_, rfl, rfl, fun d => rfl⟩
    unfold getSuggestions
    cases st.currentTrigger <;> rfl

/-- Claim C7: when a fetch resolves with an empty candidate sequence,
the loading flag becomes false, `_getSuggestions` yields nothing, so
neither the suggestion list, nor the loading indicator, nor the floating
autocomplete container is rendered — the session is observably
closed. -/
theorem claim_C7 (st : SessionState) :
    (resolveFetchState st []).dataLoading = false ∧
    getSuggestions (resolveFetchState st []) = none ∧
    listRendered (resolveFetchState st []) = false ∧
    loaderRendered (resolveFetchState st []) = false ∧
    autocompleteRendered (resolveFetchState st []) = false := by
  have hsugg : getSuggestions (resolveFetchState st []) = none := by
    unfold getSuggestions resolveFetchState
    cases st.currentTrigger <;> rfl
  refine ⟨rfl, hsugg, ?_, rfl, ?_⟩
  · unfold listRendered
    rw [hsugg]
    rfl
  · unfold autocompleteRendered
    rw [hsugg]
    rfl

/-- Claim C8 (the claim is right, the code is wrong): the `.then`
callback of `_getValuesFromProvider` means to reject a resolved value
that is not an array — its own error message says "Trigger provider has
to provide an array!" — but it tests `typeof providedData !== 'object'`
on the local `providedData`, which after normalization is always a
`Promise` and hence always of type `'object'`.  The check can never
fire: no provider result ever raises the array error, and a provider
resolving to the string `"oops"` is accepted and stored silently. -/
theorem claim_C8 :
    (∀ (providerResult : JSValue) (componentIsFunction : Bool),
        getValuesResolution providerResult componentIsFunction ≠
          Except.error
            ("RTA: Trigger provider has to provide an array!".toList)) ∧
    getValuesResolution (JSValue.jsString ("oops".toList)) true =
      Except.ok (JSValue.jsString ("oops".toList)) := by
  constructor
  · intro v b
    unfold getValuesResolution
    rw [if_neg (show
        ¬ (jsTypeof (normalizeProvided v) ≠ ("object".toList)) by
      cases v <;> simp [normalizeProvided, jsTypeof])]
    cases b <;> simp
  · rfl

/-- Witness for claim C8: a provider resolving to the number 7, with no
renderer configured, still does not raise the array error. -/
theorem claim_C8_witness :
    getValuesResolution (JSValue.jsNumber 7) false ≠
      Except.error
        ("RTA: Trigger provider has to provide an array!".toList) :=
  claim_C8.1 (JSValue.jsNumber 7) false

/-- Claim C9: after a candidate is committed, the notifications of
`_onSelect` fire in a fixed order: the content update comes first, then
exactly one synthetic content-changed notification carrying the new full
text, then the caret is repositioned to the new offset, and then — when
configured — the caret-position callback is invoked with the new offset;
the content notification always precedes the caret notification. -/
theorem claim_C9 (value : List Char) (selectionEnd : Nat)
    (newToken : List Char) (onCaretConfigured : Bool) :
    (onSelectTrace value selectionEnd newToken onCaretConfigured).get? 0 =
        some (BridgeEvent.contentUpdate
          (spliceOnSelect value selectionEnd newToken).newValue) ∧
    (onSelectTrace value selectionEnd newToken onCaretConfigured).get? 1 =
        some (BridgeEvent.syntheticChange
          (spliceOnSelect value selectionEnd newToken).newValue) ∧
    ((onSelectTrace value selectionEnd newToken
        onCaretConfigured).filter isSyntheticChangeEvent).length = 1 ∧
    (onSelectTrace value selectionEnd newToken onCaretConfigured).get? 2 =
        some (BridgeEvent.caretReposition
          (spliceOnSelect value selectionEnd newToken).newCaretPosition) ∧
    (onCaretConfigured = true →
      (onSelectTrace value selectionEnd newToken onCaretConfigured).get? 3 =
        some (BridgeEvent.caretNotify
          (spliceOnSelect value selectionEnd newToken).newCaretPosition)) ∧
    (onCaretConfigured = false →
      (onSelectTrace value selectionEnd newToken
        onCaretConfigured).length = 3) := by
  cases onCaretConfigured <;>
    simp [onSelectTrace, isSyntheticChangeEvent]

/-- Witness for claim C9, at the commit of `":happy:"` into `"hi :ha"`
with recorded caret 6: with the caret callback configured the fourth
notification is the caret report at offset 10, and without it the trace
has exactly three notifications. -/
theorem claim_C9_witness :
    (onSelectTrace ("hi :ha".toList) 6 (":happy:".toList) true).get? 3 =
      some (BridgeEvent.caretNotify 10) ∧
    (onSelectTrace ("hi :ha".toList) 6 (":happy:".toList) false).length =
      3 := by
  constructor
  · have h :=
      (claim_C9 ("hi :ha".toList) 6 (":happy:".toList) true).2.2.2.2.1 rfl
    rw [h]
    decide
  · exact (claim_C9 ("hi :ha".toList) 6 (":happy:".toList) false).2.2.2.2.2
      rfl

/-- Claim C10: the portion of the original text strictly after the
computed token end (the position reached by advancing from the recorded
caret offset past all contiguous non-whitespace characters) is preserved
verbatim and in order as the tail of the new text: the produced value is
exactly the inserted text — the `GetSubstitution`-expansion of
`value[0..start) ++ replacement` — followed by `value[end..)`, so the
splice never alters any text after the replaced token. -/
theorem claim_C10 (v : List Char) (se : Nat) (tok : List Char) :
    (spliceOnSelect v se tok).newValue =
      dollarSubstitution (v.take (se + wsScanLen (v.drop se))) []
          (v.drop (se + wsScanLen (v.drop se)))
          (v.take (searchNonWsSuffix
              (v.take (se + wsScanLen (v.drop se)))) ++ tok) ++
        v.drop (se + wsScanLen (v.drop se)) ∧
    v.drop (se + wsScanLen (v.drop se)) <:+
      (spliceOnSelect v se tok).newValue := by
  have h := spliceOnSelect_decomp v se tok
  rw [h]
  exact ⟨rfl, ⟨_, rfl⟩⟩

end RTA

-- sanity examples (concrete behaviour of the embedding)
example : RTA.changeHandlerToken [':'] 1 ("hi :ha".toList) 6 =
    some (':', ("ha".toList)) := by decide

example : RTA.spliceOnSelect ("hello :a world".toList) 8 ("__x__".toList) =
    { newValue := ("hello __x__ world".toList), newCaretPosition := 11 } := by
  decide

example : RTA.changeHandlerToken [':'] 1 ("a:b".toList) 3 =
    some (':', ['b']) := by decide

example : RTA.specTokenizer [':'] 1 ("a:b".toList) 3 = none := by decide
